import Mathlib

/-!
Verification of the MDTraj HDF5 trajectory-file core (src/MDTraj/hdf5.py).

The development is a shallow embedding of the module: file state (mode,
frame cursor, initialization flag, the named growable arrays of the
backing HDF5 group together with their unit attributes, the global
string attributes and the constraints table), the `write`, `read`,
`constraints` and `title` operations, the `_initialize_headers`
schema-initialization step, the topology codec of the `topology`
property, and the name-resolution behaviour of `__init__`.

Numeric array elements are modelled as exact rationals (the concrete
values exercised here, such as 1, 2 and 3, are exactly representable in
float32, so float32 rounding is not load-bearing for any statement).
External collaborators that live outside src/ (the unit converter
`in_units_of`, the `ensure_type` validator, the `Topology` class and the
element table) are modelled from the spec where noted in doc comments.
-/

namespace MDTraj

/-- A 3-vector of rational magnitudes, one row of a frames-by-3 or
atoms-by-3 array. -/
abbrev Vec3 := ℚ × ℚ × ℚ

/-- One frame of stored data: a coordinates/velocities frame is a list of
per-atom rows, a cell frame is a single 3-vector, a scalar field frame is
one number. -/
inductive FrameVal
  | rows (rs : List Vec3)
  | vec (v : Vec3)
  | scalar (x : ℚ)
  deriving DecidableEq, Repr

/-- One growable array (pytables EArray) of the HDF5 group: its per-frame
data, its `units` attribute, and the fixed second dimension of its
creation shape (`shape[1]`, used by the atom-index bound check). -/
structure Node where
  data : List FrameVal
  units : String
  atomDim : ℕ
  deriving DecidableEq, Repr

/-- The scalar string attributes stored on the root group
(`_v_attrs`). -/
structure Attrs where
  conventions : Option String := none
  conventionVersion : Option String := none
  program : Option String := none
  programVersion : Option String := none
  title : Option String := none
  application : Option String := none
  forcefield : Option String := none
  reference : Option String := none
  randomState : Option String := none
  deriving DecidableEq, Repr

/-- The on-disk content of the file: the optional named arrays, the
constraints table and the attributes. An array field is `none` when the
node does not exist in the file. -/
structure FileContent where
  coordinates : Option Node := none
  time : Option Node := none
  cell_lengths : Option Node := none
  cell_angles : Option Node := none
  velocities : Option Node := none
  kineticEnergy : Option Node := none
  potentialEnergy : Option Node := none
  temperature : Option Node := none
  lambdaNode : Option Node := none
  constraints : Option (List (Int × Int × ℚ)) := none
  attrs : Attrs := {}
  deriving DecidableEq, Repr

/-- The access mode fixed at open. -/
inductive Mode
  | r | w | a
  deriving DecidableEq, Repr

/-- The state of an open HDF5TrajectoryFile: mode, frame cursor
(`_frame_index`), the lazy-initialization flag
(`_needs_initialization`) and the backing file content. -/
structure FileState where
  mode : Mode
  frame_index : ℕ
  needs_initialization : Bool
  content : FileContent
  deriving DecidableEq, Repr

/-- The names of the per-frame array fields.  `lambdaField` is the field
called `lambda` in the file and `alchemicalLambda` in the write
signature. -/
inductive FieldName
  | coordinates | time | cell_angles | cell_lengths | velocities
  | kineticEnergy | potentialEnergy | temperature | lambdaField
  deriving DecidableEq, Repr

/-- Look up a named node in the file content (`getNode(where='/', name=...)`,
returning `none` for `NoSuchNodeError`). -/
def getNode (c : FileContent) : FieldName → Option Node
  | .coordinates => c.coordinates
  | .time => c.time
  | .cell_angles => c.cell_angles
  | .cell_lengths => c.cell_lengths
  | .velocities => c.velocities
  | .kineticEnergy => c.kineticEnergy
  | .potentialEnergy => c.potentialEnergy
  | .temperature => c.temperature
  | .lambdaField => c.lambdaNode

/-- Replace a named node of the file content. -/
def setNode (c : FileContent) (f : FieldName) (nd : Node) : FileContent :=
  match f with
  | .coordinates => { c with coordinates := some nd }
  | .time => { c with time := some nd }
  | .cell_angles => { c with cell_angles := some nd }
  | .cell_lengths => { c with cell_lengths := some nd }
  | .velocities => { c with velocities := some nd }
  | .kineticEnergy => { c with kineticEnergy := some nd }
  | .potentialEnergy => { c with potentialEnergy := some nd }
  | .temperature => { c with temperature := some nd }
  | .lambdaField => { c with lambdaNode := some nd }

/-- A caller-supplied coordinates-like argument: either a single frame
(2-d array, deficient ndim) or a batch of frames (3-d array). -/
inductive CoordInput
  | dim2 (frame : List Vec3)
  | dim3 (frames : List (List Vec3))
  deriving DecidableEq, Repr

/-- A caller-supplied frames-by-3 argument (cell lengths or angles):
either a single 3-vector or a batch. -/
inductive VecInput
  | one (v : Vec3)
  | many (vs : List Vec3)
  deriving DecidableEq, Repr

/-- A caller-supplied scalar-per-frame argument: either one number or a
batch. -/
inductive ScalarInput
  | one (x : ℚ)
  | many (xs : List ℚ)
  deriving DecidableEq, Repr

/-- The raw arguments of one `write` call.  A `none` field was not
supplied.  Values are modelled untagged: per the spec the unit converter
passes untagged values through unchanged, so the write-side
`in_units_of` calls are identities on this model. -/
structure Batch where
  coordinates : Option CoordInput := none
  time : Option ScalarInput := none
  cell_lengths : Option VecInput := none
  cell_angles : Option VecInput := none
  velocities : Option CoordInput := none
  kineticEnergy : Option ScalarInput := none
  potentialEnergy : Option ScalarInput := none
  temperature : Option ScalarInput := none
  alchemicalLambda : Option ScalarInput := none
  deriving DecidableEq, Repr

/-- Promote a possibly single-frame coordinates argument to a batch
(the `add_newaxis_on_deficient_ndim` behaviour of `ensure_type`,
modelled from the spec since `ensure_type` lives outside src/). -/
def promoteCoord : CoordInput → List (List Vec3)
  | .dim2 f => [f]
  | .dim3 fs => fs

/-- Promote a possibly single-frame 3-vector argument to a batch. -/
def promoteVec : VecInput → List Vec3
  | .one v => [v]
  | .many vs => vs

/-- Promote a possibly single scalar argument to a batch. -/
def promoteScalar : ScalarInput → List ℚ
  | .one x => [x]
  | .many xs => xs

/-- The errors a `write`-path call can raise.  `modeError` is the
`ensure_mode` ValueError; `pairedFieldError` the cell_lengths/cell_angles
ValueError; `shapeError` the `ensure_type` shape/dtype ValueError;
`unknownFieldError` the ragged-array ValueError raised from
`NoSuchNodeError`; `missingFieldError` the ragged-array ValueError raised
from `AssertionError`; `typeError` the constraints dtype ValueError. -/
inductive WriteErr
  | modeError
  | pairedFieldError
  | shapeError (f : FieldName)
  | unknownFieldError (f : FieldName)
  | missingFieldError (f : FieldName)
  | typeError
  deriving DecidableEq, Repr

/-- A batch after `ensure_type` validation: shapes are consistent with
the coordinate-derived frame and atom counts. -/
structure NormBatch where
  n_frames : ℕ
  n_atoms : ℕ
  coordinates : List (List Vec3)
  time : Option (List ℚ)
  cell_lengths : Option (List Vec3)
  cell_angles : Option (List Vec3)
  velocities : Option (List (List Vec3))
  kineticEnergy : Option (List ℚ)
  potentialEnergy : Option (List ℚ)
  temperature : Option (List ℚ)
  alchemicalLambda : Option (List ℚ)
  deriving DecidableEq, Repr

/-- Validate a scalar-per-frame argument against the frame count
(the `shape=(n_frames,)` check of `ensure_type`). -/
def checkScalar (f : FieldName) (n_frames : ℕ) :
    Option ScalarInput → Except WriteErr (Option (List ℚ))
  | none => .ok none
  | some si =>
    let xs := promoteScalar si
    if xs.length = n_frames then .ok (some xs) else .error (.shapeError f)

/-- Validate a frames-by-3 argument against the frame count
(the `shape=(n_frames, 3)` check of `ensure_type`). -/
def checkVec (f : FieldName) (n_frames : ℕ) :
    Option VecInput → Except WriteErr (Option (List Vec3))
  | none => .ok none
  | some vi =>
    let vs := promoteVec vi
    if vs.length = n_frames then .ok (some vs) else .error (.shapeError f)

/-- Validate a frames-by-atoms-by-3 argument against the frame and atom
counts (the `shape=(n_frames, n_atoms, 3)` check of `ensure_type`). -/
def checkCoordLike (f : FieldName) (n_frames n_atoms : ℕ) :
    Option CoordInput → Except WriteErr (Option (List (List Vec3)))
  | none => .ok none
  | some ci =>
    let fs := promoteCoord ci
    if fs.length = n_frames ∧ ∀ fr ∈ fs, fr.length = n_atoms then
      .ok (some fs)
    else .error (.shapeError f)

/-- The `ensure_type` block of `write`: coordinates are mandatory, the
frame and atom counts are derived from the coordinates shape, and every
other field is checked against them (modelled from the spec, since
`ensure_type` lives in mdtraj.utils outside src/). -/
def validateFrames (b : Batch) (frames : List (List Vec3)) : Except WriteErr NormBatch :=
  if ¬ (∀ fr ∈ frames, fr.length = (frames.headD []).length) then
    .error (.shapeError .coordinates)
  else
    match checkScalar .time frames.length b.time with
    | .error e => .error e
    | .ok time =>
    match checkVec .cell_lengths frames.length b.cell_lengths with
    | .error e => .error e
    | .ok cl =>
    match checkVec .cell_angles frames.length b.cell_angles with
    | .error e => .error e
    | .ok ca =>
    match checkCoordLike .velocities frames.length (frames.headD []).length b.velocities with
    | .error e => .error e
    | .ok vel =>
    match checkScalar .kineticEnergy frames.length b.kineticEnergy with
    | .error e => .error e
    | .ok ke =>
    match checkScalar .potentialEnergy frames.length b.potentialEnergy with
    | .error e => .error e
    | .ok pe =>
    match checkScalar .temperature frames.length b.temperature with
    | .error e => .error e
    | .ok temp =>
    match checkScalar .lambdaField frames.length b.alchemicalLambda with
    | .error e => .error e
    | .ok lam =>
      .ok { n_frames := frames.length, n_atoms := (frames.headD []).length,
            coordinates := frames, time := time,
            cell_lengths := cl, cell_angles := ca, velocities := vel,
            kineticEnergy := ke, potentialEnergy := pe,
            temperature := temp, alchemicalLambda := lam }

/-- The full `ensure_type` block: coordinates are mandatory
(`can_be_none=False`), then every field is validated by
`validateFrames` against the promoted coordinate batch. -/
def validateBatch (b : Batch) : Except WriteErr NormBatch :=
  match b.coordinates with
  | none => .error (.shapeError .coordinates)
  | some ci => validateFrames b (promoteCoord ci)

/-- The per-frame values a validated batch supplies for a given field,
as stored frame values, or `none` when the field was not supplied. -/
def suppliedContents (nb : NormBatch) : FieldName → Option (List FrameVal)
  | .coordinates => some (nb.coordinates.map FrameVal.rows)
  | .time => nb.time.map (fun xs => xs.map FrameVal.scalar)
  | .cell_angles => nb.cell_angles.map (fun vs => vs.map FrameVal.vec)
  | .cell_lengths => nb.cell_lengths.map (fun vs => vs.map FrameVal.vec)
  | .velocities => nb.velocities.map (fun fs => fs.map FrameVal.rows)
  | .kineticEnergy => nb.kineticEnergy.map (fun xs => xs.map FrameVal.scalar)
  | .potentialEnergy => nb.potentialEnergy.map (fun xs => xs.map FrameVal.scalar)
  | .temperature => nb.temperature.map (fun xs => xs.map FrameVal.scalar)
  | .lambdaField => nb.alchemicalLambda.map (fun xs => xs.map FrameVal.scalar)

/-- The MDTraj version string stamped as provenance metadata.  Modelled
from the spec: the `version` module is a build-time constant outside
src/; its value is irrelevant to every statement below. -/
def short_version : String := "0.0.0"

/-- The `_initialize_headers` step: stamp the provenance attributes,
unconditionally set `title` to the literal string `title`, default
`application` only when unset, and create one growable array per present
field with its canonical unit attribute. -/
def initialize_headers (c : FileContent) (n_atoms : ℕ)
    (set_time set_cell set_velocities set_kineticEnergy
     set_potentialEnergy set_temperature set_alchemicalLambda : Bool) :
    FileContent :=
  let attrs1 : Attrs :=
    { c.attrs with
      conventions := some "Pande"
      conventionVersion := some "1.0"
      program := some "MDTraj"
      programVersion := some short_version
      title := some "title" }
  let attrs2 : Attrs :=
    if attrs1.application = none then { attrs1 with application := some "MDTraj" }
    else attrs1
  { c with
    attrs := attrs2
    coordinates := some ⟨[], "nanometers", n_atoms⟩
    time := if set_time then some ⟨[], "picoseconds", 0⟩ else c.time
    cell_lengths := if set_cell then some ⟨[], "nanometers", 3⟩ else c.cell_lengths
    cell_angles := if set_cell then some ⟨[], "degrees", 3⟩ else c.cell_angles
    velocities := if set_velocities then some ⟨[], "nanometers/picosecond", n_atoms⟩ else c.velocities
    kineticEnergy := if set_kineticEnergy then some ⟨[], "kilojoules_per_mole", 0⟩ else c.kineticEnergy
    potentialEnergy := if set_potentialEnergy then some ⟨[], "kilojoules_per_mole", 0⟩ else c.potentialEnergy
    temperature := if set_temperature then some ⟨[], "kelvin", 0⟩ else c.temperature
    lambdaNode := if set_alchemicalLambda then some ⟨[], "dimensionless", 0⟩ else c.lambdaNode }

/-- The fixed order in which `write` visits the fields: the eight names
of its loop, then `lambda`, which the source handles in a trailing step
with identical semantics. -/
def fieldOrder : List FieldName :=
  [.coordinates, .time, .cell_angles, .cell_lengths, .velocities,
   .kineticEnergy, .potentialEnergy, .temperature, .lambdaField]

/-- The outcome of a mutating call: success with the new state, or an
error together with the state at the moment the error was raised (the
per-field append loop is not transactional, so an error state may hold
partial appends). -/
inductive WriteResult
  | ok (s : FileState)
  | err (e : WriteErr) (s : FileState)
  deriving DecidableEq, Repr

/-- The error of a result, if any. -/
def resultError : WriteResult → Option WriteErr
  | .ok _ => none
  | .err e _ => some e

/-- The state carried by a result (the new state on success, the state
at failure otherwise). -/
def resultState : WriteResult → FileState
  | .ok s => s
  | .err _ s => s

/-- The per-field append loop of `write`: for each field in order, a
supplied field is appended to its node (`NoSuchNodeError`, reported as
the ragged unknown-field ValueError, if the node does not exist), and an
unsupplied field must have no node (`AssertionError`, reported as the
ragged missing-field ValueError, if it does).  Fields are appended one
at a time, so an error leaves the earlier appends in place. -/
def appendLoop (nb : NormBatch) : FileState → List FieldName → WriteResult
  | s, [] => .ok s
  | s, f :: rest =>
    match suppliedContents nb f, getNode s.content f with
    | some cont, some nd =>
        appendLoop nb { s with content := setNode s.content f ⟨nd.data ++ cont, nd.units, nd.atomDim⟩ } rest
    | some _, none => .err (.unknownFieldError f) s
    | none, some _ => .err (.missingFieldError f) s
    | none, none => appendLoop nb s rest

/-- Whether exactly one of `cell_lengths` and `cell_angles` was supplied
(the condition of the paired-field ValueError). -/
def pairedMismatch (b : Batch) : Bool :=
  (b.cell_lengths.isNone && !b.cell_angles.isNone) ||
  (!b.cell_lengths.isNone && b.cell_angles.isNone)

/-- The one-shot schema-initialization step of `write`: on the first
accepted call, run `_initialize_headers` with the presence flags derived
from the supplied fields and clear the pending flag; afterwards a
no-op. -/
def initIfNeeded (s : FileState) (nb : NormBatch) : FileState :=
  if s.needs_initialization then
    { s with
      needs_initialization := false
      content :=
        initialize_headers s.content nb.n_atoms
          nb.time.isSome
          (nb.cell_lengths.isSome || nb.cell_angles.isSome)
          nb.velocities.isSome nb.kineticEnergy.isSome
          nb.potentialEnergy.isSome nb.temperature.isSome
          nb.alchemicalLambda.isSome }
  else s

/-- The tail of `write`: run the per-field append loop, then advance the
cursor by the frame count of the batch (and flush, a no-op on this
model). -/
def writeAppend (nb : NormBatch) (s1 : FileState) : WriteResult :=
  match appendLoop nb s1 fieldOrder with
  | .ok s2 => .ok { s2 with frame_index := s2.frame_index + nb.n_frames }
  | .err e s2 => .err e s2

/-- The `write` method: mode gate, paired-field check, unit conversion
(identity on this untagged model), `ensure_type` validation, one-shot
schema initialization on the first call, the per-field append loop, and
the cursor advance by the frame count of the batch. -/
def write (s : FileState) (b : Batch) : WriteResult :=
  if ¬ (s.mode = Mode.w ∨ s.mode = Mode.a) then .err .modeError s
  else if b.cell_lengths = none ∧ b.cell_angles ≠ none then .err .pairedFieldError s
  else if b.cell_lengths ≠ none ∧ b.cell_angles = none then .err .pairedFieldError s
  else
    match validateBatch b with
    | .error e => .err e s
    | .ok nb => writeAppend nb (initIfNeeded s nb)

/-- The errors a `read` call can raise: the `ensure_mode` ValueError,
the propagated `NoSuchNodeError` when the mandatory coordinates node is
absent, the atom-index ValueErrors, and the ValueError a zero slice
step raises. -/
inductive ReadErr
  | modeError
  | noCoordinatesNode
  | indexError
  | strideZero
  deriving DecidableEq, Repr

/-- The `Frames` namedtuple returned by `read`: each optional field is
`none` when its node is absent from the file. -/
structure Frames where
  coordinates : List FrameVal
  time : Option (List FrameVal)
  cell_lengths : Option (List FrameVal)
  cell_angles : Option (List FrameVal)
  velocities : Option (List FrameVal)
  kineticEnergy : Option (List FrameVal)
  potentialEnergy : Option (List FrameVal)
  temperature : Option (List FrameVal)
  alchemicalLambda : Option (List FrameVal)
  deriving DecidableEq, Repr

/-- What a `read` call hands back: the literal empty list of the
empty-window early return, or a `Frames` namedtuple. -/
inductive ReadOut
  | emptyList
  | frames (fr : Frames)
  deriving DecidableEq, Repr

/-- Python extended-slice extraction `l[start:stop:step]` for a
non-negative start/stop and positive step: the elements at indices
`start, start + step, ...` below both `stop` and the length. -/
def pySlice (l : List α) (start stop step : ℕ) : List α :=
  (List.range l.length).filterMap fun i =>
    if start ≤ i ∧ i < stop ∧ (i - start) % step = 0 then l.get? i else none

/-- The unit converter, modelled from the spec: `in_units_of` maps a
magnitude from a source unit to a target unit, and converting a value to
its own unit returns it unchanged; conversion between distinct units is
an external collaborator, passed in as `conv`. -/
def in_units_of (conv : String → String → ℚ → ℚ) (out src : String) (x : ℚ) : ℚ :=
  if src = out then x else conv src out x

/-- Apply a function to every magnitude of a stored frame value. -/
def FrameVal.mapQ (f : ℚ → ℚ) : FrameVal → FrameVal
  | .rows rs => .rows (rs.map fun v => (f v.1, f v.2.1, f v.2.2))
  | .vec v => .vec (f v.1, f v.2.1, f v.2.2)
  | .scalar x => .scalar (f x)

/-- Whether a field is indexed by atom (only coordinates and velocities
receive the atom slice in `read`). -/
def atomSliced : FieldName → Bool
  | .coordinates => true
  | .velocities => true
  | _ => false

/-- Fancy-index the atom rows of one coordinates/velocities frame by a
validated list of indices; `none` selects every atom. -/
def atomSubset (atom_indices : Option (List Int)) (fv : FrameVal) : FrameVal :=
  match atom_indices, fv with
  | some is, .rows rs => .rows (is.map fun i => rs.getD i.toNat (0, 0, 0))
  | _, fv => fv

/-- The validation of `atom_indices` in `read`: first every index must
be below the atom dimension of the coordinates array, then every index
must be non-negative; each failure is a ValueError. -/
def atomCheck (nAtoms : ℕ) : Option (List Int) → Option ReadErr
  | none => none
  | some is =>
    if ¬ (∀ i ∈ is, i < (nAtoms : Int)) then some .indexError
    else if ¬ (∀ i ∈ is, 0 ≤ i) then some .indexError
    else none

/-- The `get_field` helper of `read`: fetch a node, slice its frames
(and, for atom-sliced fields, its atom rows), and convert from the
stored unit attribute to the requested output unit. -/
def get_field (conv : String → String → ℚ → ℚ) (c : FileContent)
    (f : FieldName) (start stop step : ℕ) (atom_indices : Option (List Int))
    (out : String) : Option (List FrameVal) :=
  match getNode c f with
  | none => none
  | some nd =>
    some ((pySlice nd.data start stop step).map fun fv =>
      FrameVal.mapQ (in_units_of conv out nd.units)
        (if atomSliced f then atomSubset atom_indices fv else fv))

/-- The stop of the frame window of a `read` call:
`min(frame_index + n_frames, total)`, where an unsupplied `n_frames` is
`np.inf` so the minimum is the total frame count. -/
def windowStop (total start : ℕ) : Option ℕ → ℕ
  | none => total
  | some n => min (start + n) total

/-- The amount the source adds to the cursor after a non-empty read:
`min(n_frames, total_n_frames)`, again with `np.inf` for an unsupplied
`n_frames`. -/
def cursorAdvance (total : ℕ) : Option ℕ → ℕ
  | none => total
  | some n => min n total

/-- The `read` method: mode gate, frame-window computation with the
empty-window early return, atom-index validation, per-field fetch with
unit conversion, and the cursor advance. -/
def read (conv : String → String → ℚ → ℚ) (s : FileState)
    (n_frames : Option ℕ) (stride : Option ℕ)
    (atom_indices : Option (List Int)) :
    Except ReadErr (ReadOut × FileState) :=
  if ¬ s.mode = Mode.r then .error .modeError
  else
    match s.content.coordinates with
    | none => .error .noCoordinatesNode
    | some coordNode =>
      let total := coordNode.data.length
      let start := s.frame_index
      let stop := windowStop total start n_frames
      if stop = start then .ok (.emptyList, s)
      else
        match atomCheck coordNode.atomDim atom_indices with
        | some e => .error e
        | none =>
          let step := stride.getD 1
          if step = 0 then .error .strideZero
          else
            match get_field conv s.content .coordinates start stop step atom_indices "nanometers" with
            | none => .error .noCoordinatesNode
            | some coords =>
              let fr : Frames :=
                { coordinates := coords
                  time := get_field conv s.content .time start stop step atom_indices "picoseconds"
                  cell_lengths := get_field conv s.content .cell_lengths start stop step atom_indices "nanometers"
                  cell_angles := get_field conv s.content .cell_angles start stop step atom_indices "degrees"
                  velocities := get_field conv s.content .velocities start stop step atom_indices "nanometers/picosecond"
                  kineticEnergy := get_field conv s.content .kineticEnergy start stop step atom_indices "kilojoules_per_mole"
                  potentialEnergy := get_field conv s.content .potentialEnergy start stop step atom_indices "kilojoules_per_mole"
                  temperature := get_field conv s.content .temperature start stop step atom_indices "kelvin"
                  alchemicalLambda := get_field conv s.content .lambdaField start stop step atom_indices "dimensionless" }
              .ok (.frames fr, { s with frame_index := start + cursorAdvance total n_frames })

/-- The on-disk frame count of a file: the length of its coordinates
array (zero when the node is absent). -/
def onDiskFrames (c : FileContent) : ℕ :=
  match c.coordinates with
  | none => 0
  | some nd => nd.data.length

/-- The final cursor of a successful read, `none` on error. -/
def readCursor (r : Except ReadErr (ReadOut × FileState)) : Option ℕ :=
  match r with
  | .ok (_, s) => some s.frame_index
  | .error _ => none

/-- The state a successful read leaves behind; a fallback is returned on
error (errors are raised before any state mutation in the source). -/
def readStateOf (r : Except ReadErr (ReadOut × FileState)) (dflt : FileState) : FileState :=
  match r with
  | .ok (_, s) => s
  | .error _ => dflt

/-- A numpy scalar type, as far as the constraints dtype check needs. -/
inductive NpType
  | int32 | int64 | float32 | float64
  deriving DecidableEq, Repr

/-- A numpy structured dtype: ordered named fields. -/
abbrev NpDtype := List (String × NpType)

/-- The fixed record layout of the constraints table:
(atom1 int32, atom2 int32, distance float32). -/
def constraintsDtype : NpDtype :=
  [("atom1", NpType.int32), ("atom2", NpType.int32), ("distance", NpType.float32)]

/-- A caller-supplied constraints array: its dtype tag and its rows. -/
structure ConstraintsValue where
  dtype : NpDtype
  rows : List (Int × Int × ℚ)
  deriving DecidableEq, Repr

/-- The `constraints` setter: mode gate, exact dtype comparison with no
casting (ValueError on mismatch, before any mutation), then create the
table if absent, truncate it to zero rows and append the new rows. -/
def setConstraints (s : FileState) (v : ConstraintsValue) : WriteResult :=
  if ¬ (s.mode = Mode.w ∨ s.mode = Mode.a) then .err .modeError s
  else if ¬ v.dtype = constraintsDtype then .err .typeError s
  else .ok { s with content := { s.content with constraints := some v.rows } }

/-- The `title` setter: mode gate, then store the string attribute. -/
def setTitle (s : FileState) (value : String) : WriteResult :=
  if ¬ (s.mode = Mode.w ∨ s.mode = Mode.a) then .err .modeError s
  else .ok { s with content := { s.content with attrs := { s.content.attrs with title := some value } } }

/-- The names the module body of hdf5.py binds at module scope: the
imports (the `import tables` on line 150 is commented out; pytables is
bound only as the instance attribute `self.tables`) and the module-level
definitions. -/
def moduleGlobals : List String :=
  ["os", "warnings", "inspect", "wraps", "operator", "namedtuple", "json",
   "np", "version", "elem", "Topology", "in_units_of", "ensure_type",
   "import_", "__all__", "ensure_mode", "Frames", "HDF5TrajectoryFile"]

/-- The local names bound inside `__init__` when its append-mode except
clause is evaluated. -/
def initLocalNames : List String :=
  ["self", "filename", "mode", "force_overwrite", "compression"]

/-- The Python builtins the except clause could fall back to. -/
def builtinNames : List String :=
  ["len", "min", "int", "str", "slice", "sorted", "list", "hasattr",
   "ValueError", "IOError", "AttributeError", "AssertionError", "KeyError"]

/-- Whether a bare name resolves inside `__init__` (locals, then module
globals, then builtins). -/
def nameResolves (n : String) : Bool :=
  initLocalNames.contains n || moduleGlobals.contains n || builtinNames.contains n

/-- The errors the constructor can raise: the bad-mode ValueError, the
existing-file IOError, the bad-compression ValueError, and the NameError
raised when the `except tables.NoSuchNodeError` clause of the
append-mode branch is evaluated. -/
inductive InitErr
  | invalidMode
  | alreadyExists
  | invalidCompression
  | nameError
  deriving DecidableEq, Repr

/-- A fresh, empty HDF5 file (what opening in write mode creates). -/
def emptyContent : FileContent := {}

/-- The `__init__` of HDF5TrajectoryFile: mode validation, the
overwrite check, compression validation, then the per-mode cursor
setup.  In append mode the cursor is the length of the existing
coordinates array; when that node is missing, the raised
`NoSuchNodeError` reaches the `except tables.NoSuchNodeError` clause,
whose evaluation must resolve the bare name `tables` — and only falls
back to cursor 0 if it does. -/
def hdf5_init (mode : String) (force_overwrite : Bool)
    (compression : Option String) (fileExists : Bool) (disk : FileContent) :
    Except InitErr FileState :=
  if ¬ (mode = "r" ∨ mode = "w" ∨ mode = "a") then .error .invalidMode
  else if mode = "w" ∧ ¬ force_overwrite ∧ fileExists then .error .alreadyExists
  else if ¬ (compression = some "zlib" ∨ compression = none) then .error .invalidCompression
  else if mode = "w" then .ok ⟨Mode.w, 0, true, emptyContent⟩
  else if mode = "a" then
    match disk.coordinates with
    | some nd => .ok ⟨Mode.a, nd.data.length, false, disk⟩
    | none =>
      if nameResolves "tables" then .ok ⟨Mode.a, 0, false, disk⟩
      else .error .nameError
  else .ok ⟨Mode.r, 0, false, disk⟩

/-- A chemical element, as far as the codec observes it: its symbol.
Modelled from the spec: the element table is an external collaborator
resolving a symbol to an element record. -/
structure Element where
  symbol : String
  deriving DecidableEq, Repr

/-- An atom of a topology graph: a name and an element. -/
structure TAtom where
  name : String
  element : Element
  deriving DecidableEq, Repr

/-- A residue: a name and its ordered atoms. -/
structure TResidue where
  name : String
  atoms : List TAtom
  deriving DecidableEq, Repr

/-- A chain: its ordered residues. -/
structure TChain where
  residues : List TResidue
  deriving DecidableEq, Repr

/-- A topology graph.  Modelled from the spec: the mdtraj Topology class
lives outside src/; its chains, residues and atoms are insertion-ordered
and carry stored indices equal to their insertion positions (chain index
among chains, residue index global across chains, atom index global
across everything), and each bond is a pair of positions in the
flattened, insertion-ordered atom sequence. -/
structure Topology where
  chains : List TChain
  bonds : List (ℕ × ℕ)
  deriving DecidableEq, Repr

/-- The flattened, insertion-ordered atom sequence of a topology. -/
def Topology.flatAtoms (t : Topology) : List TAtom :=
  t.chains.flatMap fun ch => ch.residues.flatMap fun r => r.atoms

/-- One atom entry of the serialized topology record. -/
structure AtomDict where
  index : Int
  name : String
  element : String
  deriving DecidableEq, Repr

/-- One residue entry of the serialized topology record. -/
structure ResidueDict where
  index : Int
  name : String
  atoms : List AtomDict
  deriving DecidableEq, Repr

/-- One chain entry of the serialized topology record. -/
structure ChainDict where
  index : Int
  residues : List ResidueDict
  deriving DecidableEq, Repr

/-- The serialized topology record stored in the file.  The JSON text
layer (`json.dumps` on encode, `json.loads` on decode) is an external
round-trip identity, so the record is modelled as the parsed
dictionary. -/
structure TopologyDict where
  chains : List ChainDict
  bonds : List (Int × Int)
  deriving DecidableEq, Repr

/-- Encode the atoms of one residue, starting at the given global atom
index. -/
def encodeAtomList (aIdx : ℕ) : List TAtom → List AtomDict
  | [] => []
  | a :: rest => ⟨(aIdx : Int), a.name, a.element.symbol⟩ :: encodeAtomList (aIdx + 1) rest

/-- Encode the residues of one chain, threading the global atom and
residue counters. -/
def encodeResidueList (aIdx rIdx : ℕ) : List TResidue → List ResidueDict
  | [] => []
  | r :: rest =>
    ⟨(rIdx : Int), r.name, encodeAtomList aIdx r.atoms⟩ ::
      encodeResidueList (aIdx + r.atoms.length) (rIdx + 1) rest

/-- The number of atoms of a chain. -/
def chainAtomCount (ch : TChain) : ℕ :=
  (ch.residues.map fun r => r.atoms.length).sum

/-- Encode the chains, threading the global atom, residue and chain
counters. -/
def encodeChainList (aIdx rIdx cIdx : ℕ) : List TChain → List ChainDict
  | [] => []
  | ch :: rest =>
    ⟨(cIdx : Int), encodeResidueList aIdx rIdx ch.residues⟩ ::
      encodeChainList (aIdx + chainAtomCount ch) (rIdx + ch.residues.length) (cIdx + 1) rest

/-- The topology setter walk: serialize chains, residues and atoms in
document order with their stored indices, and each bond as the pair of
global indices of its two atoms. -/
def encodeTopology (t : Topology) : TopologyDict :=
  ⟨encodeChainList 0 0 0 t.chains,
   t.bonds.map fun p => ((p.1 : Int), (p.2 : Int))⟩

/-- Insert an element into a key-sorted list after every entry of
smaller or equal key: one step of a stable ascending sort. -/
def stableInsert (key : α → Int) (x : α) : List α → List α
  | [] => [x]
  | y :: ys => if key y ≤ key x then y :: stableInsert key x ys else x :: y :: ys

/-- Python `sorted(l, key=...)`: a stable ascending sort by an integer
key. -/
def sortByKey (key : α → Int) (l : List α) : List α :=
  l.foldl (fun acc x => stableInsert key x acc) []

/-- The errors the topology getter can raise: the ValueError raised when
an element symbol is unknown, and the IndexError of an out-of-range bond
index. -/
inductive TopErr
  | unknownElement (symbol : String)
  | bondIndexError
  deriving DecidableEq, Repr

/-- Rebuild the atoms of one residue, resolving each element symbol
through the lookup table. -/
def decodeAtomList (lookup : String → Option Element) :
    List AtomDict → Except TopErr (List TAtom)
  | [] => .ok []
  | ad :: rest =>
    match lookup ad.element with
    | none => .error (.unknownElement ad.element)
    | some e =>
      match decodeAtomList lookup rest with
      | .ok atoms => .ok (⟨ad.name, e⟩ :: atoms)
      | .error er => .error er

/-- Rebuild the atoms of one residue ordered by stored index. -/
def decodeAtoms (lookup : String → Option Element) (ads : List AtomDict) :
    Except TopErr (List TAtom) :=
  decodeAtomList lookup (sortByKey (fun ad => ad.index) ads)

/-- Rebuild the residues of one chain ordered by stored index. -/
def decodeResidueList (lookup : String → Option Element) :
    List ResidueDict → Except TopErr (List TResidue)
  | [] => .ok []
  | rd :: rest =>
    match decodeAtoms lookup rd.atoms with
    | .error er => .error er
    | .ok atoms =>
      match decodeResidueList lookup rest with
      | .ok rs => .ok (⟨rd.name, atoms⟩ :: rs)
      | .error er => .error er

/-- Rebuild the residues ordered by stored index. -/
def decodeResidues (lookup : String → Option Element) (rds : List ResidueDict) :
    Except TopErr (List TResidue) :=
  decodeResidueList lookup (sortByKey (fun rd => rd.index) rds)

/-- Rebuild the chains ordered by stored index. -/
def decodeChainList (lookup : String → Option Element) :
    List ChainDict → Except TopErr (List TChain)
  | [] => .ok []
  | cd :: rest =>
    match decodeResidues lookup cd.residues with
    | .error er => .error er
    | .ok rs =>
      match decodeChainList lookup rest with
      | .ok chs => .ok (⟨rs⟩ :: chs)
      | .error er => .error er

/-- Rebuild every chain ordered by stored index. -/
def decodeChains (lookup : String → Option Element) (cds : List ChainDict) :
    Except TopErr (List TChain) :=
  decodeChainList lookup (sortByKey (fun cd => cd.index) cds)

/-- Python list indexing `atoms[i]` on a list of length `n`: in-range
non-negative indices are themselves, negative indices wrap once, and
anything else is an IndexError. -/
def pyIndex (n : ℕ) (i : Int) : Option ℕ :=
  if 0 ≤ i ∧ i < (n : Int) then some i.toNat
  else if -(n : Int) ≤ i ∧ i < 0 then some (n - (-i).toNat)
  else none

/-- Resolve the stored bond pairs against the flattened atom sequence of
the rebuilt topology. -/
def decodeBondList (nAtoms : ℕ) : List (Int × Int) → Except TopErr (List (ℕ × ℕ))
  | [] => .ok []
  | p :: rest =>
    match pyIndex nAtoms p.1, pyIndex nAtoms p.2 with
    | some i, some j =>
      match decodeBondList nAtoms rest with
      | .ok bs => .ok ((i, j) :: bs)
      | .error er => .error er
    | _, _ => .error .bondIndexError

/-- The topology getter: rebuild chains by stored index, residues by
stored index within chain, atoms by stored index within residue with
element lookup, then resolve every bond against the flattened
insertion-ordered atom sequence of the rebuilt topology. -/
def decodeTopology (lookup : String → Option Element) (td : TopologyDict) :
    Except TopErr Topology :=
  match decodeChains lookup td.chains with
  | .error er => .error er
  | .ok chains =>
    let atoms := (Topology.mk chains []).flatAtoms
    match decodeBondList atoms.length td.bonds with
    | .error er => .error er
    | .ok bonds => .ok ⟨chains, bonds⟩

/-- The output of a successful read, `none` on error. -/
def readOutOf (r : Except ReadErr (ReadOut × FileState)) : Option ReadOut :=
  match r with
  | .ok (o, _) => some o
  | .error _ => none

/-- The first field, in write order, whose supplied/schema presence
disagree, together with whether it was supplied (`true`: supplied but
absent from the schema; `false`: in the schema but unsupplied). -/
def firstMismatch (c : FileContent) (nb : NormBatch) : List FieldName → Option (FieldName × Bool)
  | [] => none
  | f :: rest =>
    if (suppliedContents nb f).isSome = (getNode c f).isSome then firstMismatch c nb rest
    else some (f, (suppliedContents nb f).isSome)

/-! ### Concrete instances used by the closed statements below -/

/-- The identity unit converter, enough for the canonical-unit paths
where source and target units coincide. -/
def idConv : String → String → ℚ → ℚ := fun _ _ x => x

/-- A freshly created file opened in write mode. -/
def freshW : FileState := ⟨Mode.w, 0, true, emptyContent⟩

/-- A write call supplying one frame of coordinates `[[1, 2, 3]]`
(a 2-d array, exercising the deficient-ndim promotion) and nothing
else. -/
def batch123 : Batch := { coordinates := some (CoordInput.dim2 [(1, 2, 3)]) }

/-- Close a file and reopen it in read mode: same on-disk content,
cursor 0, no initialization pending (the read branch of `__init__`). -/
def reopenRead (s : FileState) : FileState := ⟨Mode.r, 0, false, s.content⟩

/-- A coordinates array holding five one-atom frames. -/
def exNode5 : Node :=
  ⟨[FrameVal.rows [(0, 0, 0)], FrameVal.rows [(1, 0, 0)], FrameVal.rows [(2, 0, 0)],
    FrameVal.rows [(3, 0, 0)], FrameVal.rows [(4, 0, 0)]], "nanometers", 1⟩

/-- A five-frame file open for reading with its cursor at 2 (the state
after reading two frames). -/
def exFile52 : FileState := ⟨Mode.r, 2, false, { coordinates := some exNode5 }⟩

/-- The five-frame file with its cursor at 7, the state the source
leaves behind after `read()` on `exFile52`. -/
def exFile57 : FileState := ⟨Mode.r, 7, false, { coordinates := some exNode5 }⟩

/-- The five-frame file freshly opened for reading, cursor 0. -/
def exFile50 : FileState := ⟨Mode.r, 0, false, { coordinates := some exNode5 }⟩

/-- The state after `read()` with no frame limit on the fresh five-frame
file. -/
def s1Ex : FileState := readStateOf (read idConv exFile50 none none none) exFile50

/-- An initialized file whose schema is coordinates plus velocities. -/
def sIn : FileState :=
  ⟨Mode.a, 1, false,
    { coordinates := some ⟨[FrameVal.rows [(0, 0, 0)]], "nanometers", 1⟩,
      velocities := some ⟨[FrameVal.rows [(0, 0, 0)]], "nanometers/picosecond", 1⟩ }⟩

/-- A write call on `sIn` supplying coordinates and time but omitting
velocities: a missing-field violation (velocities) and an unknown-field
violation (time) at once. -/
def bIn : Batch :=
  { coordinates := some (CoordInput.dim3 [[(1, 1, 1)]]),
    time := some (ScalarInput.many [0]) }

/-- An initialized coordinates-only file. -/
def sW2 : FileState :=
  ⟨Mode.a, 1, false, { coordinates := some ⟨[FrameVal.rows [(0, 0, 0)]], "nanometers", 1⟩ }⟩

/-- A write call on `sW2` supplying exactly the schema. -/
def bW2 : Batch := { coordinates := some (CoordInput.dim3 [[(2, 2, 2)]]) }

/-- The validated form of `bW2`. -/
def nbW2 : NormBatch :=
  ⟨1, 1, [[(2, 2, 2)]], none, none, none, none, none, none, none, none⟩

/-- A writable file already holding one constraint row. -/
def sC : FileState :=
  ⟨Mode.w, 0, false, { constraints := some [(0, 1, (1 : ℚ) / 2)] }⟩

/-- A constraints array with a mismatched layout (float64 distance). -/
def vBad : ConstraintsValue :=
  ⟨[("atom1", NpType.int32), ("atom2", NpType.int32), ("distance", NpType.float64)], [(4, 5, 1)]⟩

/-- A constraints array with the exact required layout. -/
def vGood : ConstraintsValue := ⟨constraintsDtype, [(2, 3, (3 : ℚ) / 2)]⟩

/-- A fresh write-mode file whose caller set `title` and `application`
before the first write. -/
def freshTitled : FileState :=
  ⟨Mode.w, 0, true, { attrs := { title := some "mine", application := some "myapp" } }⟩

/-- The state the first write on `freshTitled` produces. -/
def freshTitledAfter : FileState := resultState (write freshTitled batch123)

/-- A write call supplying coordinates and cell_lengths but no
cell_angles. -/
def bCellOnly : Batch :=
  { coordinates := some (CoordInput.dim2 [(1, 2, 3)]),
    cell_lengths := some (VecInput.one (1, 1, 1)) }

/-- A small element table resolving H, C, N and O. -/
def exampleLookup (s : String) : Option Element :=
  if s = "H" ∨ s = "C" ∨ s = "N" ∨ s = "O" then some ⟨s⟩ else none

/-- A topology with 2 chains, 3 residues, 5 atoms and 4 bonds. -/
def exampleTop : Topology :=
  ⟨[⟨[⟨"ALA", [⟨"N", ⟨"N"⟩⟩, ⟨"CA", ⟨"C"⟩⟩, ⟨"CB", ⟨"C"⟩⟩]⟩, ⟨"GLY", [⟨"O", ⟨"O"⟩⟩]⟩]⟩,
    ⟨[⟨"HOH", [⟨"H1", ⟨"H"⟩⟩]⟩]⟩],
   [(0, 1), (1, 2), (1, 3), (0, 4)]⟩

/-! ### Theorems -/

/-- C10: every read call on a file opened in write or append mode raises
the `ensure_mode` error before touching any state; reading is permitted
only in read mode. -/
theorem read_mode_gate (conv : String → String → ℚ → ℚ) (s : FileState)
    (n_frames stride : Option ℕ) (atom_indices : Option (List Int))
    (h : s.mode = Mode.w ∨ s.mode = Mode.a) :
    read conv s n_frames stride atom_indices = Except.error ReadErr.modeError := by
  unfold read
  rcases h with h | h <;> simp [h]

/-- Witness for C10: a freshly opened write-mode file rejects `read`. -/
theorem read_mode_gate_witness :
    read idConv freshW none none none = Except.error ReadErr.modeError :=
  read_mode_gate idConv freshW none none none (Or.inl rfl)

/-- C9: opening in append mode on a file with no coordinates node does
not take the intended cursor-0 fallback: the except clause names the
unresolvable bare name `tables`, so the constructor fails with a
NameError. -/
theorem append_missing_node_name_error (force_overwrite : Bool)
    (fileExists : Bool) (disk : FileContent) (h : disk.coordinates = none) :
    hdf5_init "a" force_overwrite (some "zlib") fileExists disk =
      Except.error InitErr.nameError ∧
    nameResolves "tables" = false := by
  constructor
  · unfold hdf5_init
    simp [h]
    decide
  · decide

/-- Witness for C9: the concrete failing open. -/
theorem append_missing_node_name_error_witness :
    hdf5_init "a" true (some "zlib") true emptyContent =
      Except.error InitErr.nameError ∧
    nameResolves "tables" = false :=
  append_missing_node_name_error true true emptyContent rfl

/-- C3: the constraints setter validates the fixed
(atom1 int32, atom2 int32, distance float32) layout with no coercion
before any mutation — a mismatched layout raises the dtype error with
the stored table untouched — and on a match the previous content is
replaced wholesale by the new rows. -/
theorem constraints_set_atomic (s : FileState) (v : ConstraintsValue)
    (hm : s.mode = Mode.w ∨ s.mode = Mode.a) :
    (v.dtype ≠ constraintsDtype →
      setConstraints s v = WriteResult.err WriteErr.typeError s) ∧
    (v.dtype = constraintsDtype →
      setConstraints s v =
        WriteResult.ok { s with content := { s.content with constraints := some v.rows } }) := by
  constructor
  · intro h
    unfold setConstraints
    rcases hm with hm | hm <;> simp [hm, h]
  · intro h
    unfold setConstraints
    rcases hm with hm | hm <;> simp [hm, h]

/-- Witness for C3: a mismatched layout leaves the stored row in place;
the exact layout replaces it. -/
theorem constraints_set_atomic_witness :
    setConstraints sC vBad = WriteResult.err WriteErr.typeError sC ∧
    setConstraints sC vGood =
      WriteResult.ok { sC with content := { sC.content with constraints := some vGood.rows } } :=
  ⟨(constraints_set_atomic sC vBad (Or.inl rfl)).1 (by decide),
   (constraints_set_atomic sC vGood (Or.inl rfl)).2 rfl⟩

/-- C1 (code bug): on the five-frame file with cursor 2, a
`read(n_frames=10)` has raw window `[2, 5)` of size 3, but the source
adds `min(n_frames, total_n_frames) = 5` to the cursor, leaving it at
7 — past the on-disk frame count of 5. -/
theorem read_cursor_overshoot :
    exFile52.frame_index = 2 ∧
    onDiskFrames exFile52.content = 5 ∧
    windowStop (onDiskFrames exFile52.content) exFile52.frame_index (some 10) = 5 ∧
    readCursor (read idConv exFile52 (some 10) none none) = some 7 := by
  refine ⟨rfl, rfl, rfl, ?_⟩
  rfl

/-- C6 (counterexample): at the reachable state with cursor 7 on the
five-frame file, the window `[7, min(7 + inf, 5)) = [7, 5)` is empty,
yet the call does not take the empty-window early return: it hands back
a `Frames` tuple (not the empty list) and moves the cursor to 12. -/
theorem read_after_overshoot_moves_cursor :
    exFile57.frame_index = 7 ∧
    onDiskFrames exFile57.content = 5 ∧
    windowStop (onDiskFrames exFile57.content) exFile57.frame_index none ≤ exFile57.frame_index ∧
    readCursor (read idConv exFile57 none none none) = some 12 ∧
    readOutOf (read idConv exFile57 none none none) ≠ some ReadOut.emptyList := by
  refine ⟨rfl, rfl, by decide, rfl, by decide⟩

/-- C6 (amended): for every read call whose cursor is at most the
on-disk frame count and whose computed window is empty, the call
returns the empty list and leaves the state — cursor included —
unchanged. -/
theorem read_empty_window_noop (conv : String → String → ℚ → ℚ) (s : FileState)
    (n_frames stride : Option ℕ) (atom_indices : Option (List Int)) (nd : Node)
    (hm : s.mode = Mode.r) (hc : s.content.coordinates = some nd)
    (hcur : s.frame_index ≤ nd.data.length)
    (hempty : windowStop nd.data.length s.frame_index n_frames ≤ s.frame_index) :
    read conv s n_frames stride atom_indices = Except.ok (ReadOut.emptyList, s) := by
  have hge : s.frame_index ≤ windowStop nd.data.length s.frame_index n_frames := by
    cases n_frames with
    | none => simpa [windowStop] using hcur
    | some n =>
      simp only [windowStop]
      exact le_min (Nat.le_add_right _ _) hcur
  have hstop : windowStop nd.data.length s.frame_index n_frames = s.frame_index :=
    Nat.le_antisymm hempty hge
  unfold read
  simp [hm, hc, hstop]

/-- `checkScalar` only ever fails with the shape error of its field. -/
theorem checkScalar_error_shape (f : FieldName) (n : ℕ) (o : Option ScalarInput)
    (e : WriteErr) (h : checkScalar f n o = Except.error e) :
    e = WriteErr.shapeError f := by
  cases o with
  | none => simp [checkScalar] at h
  | some si =>
    simp only [checkScalar] at h
    split at h
    · simp at h
    · injection h with h2
      exact h2.symm

/-- `checkVec` only ever fails with the shape error of its field. -/
theorem checkVec_error_shape (f : FieldName) (n : ℕ) (o : Option VecInput)
    (e : WriteErr) (h : checkVec f n o = Except.error e) :
    e = WriteErr.shapeError f := by
  cases o with
  | none => simp [checkVec] at h
  | some vi =>
    simp only [checkVec] at h
    split at h
    · simp at h
    · injection h with h2
      exact h2.symm

/-- `checkCoordLike` only ever fails with the shape error of its
field. -/
theorem checkCoordLike_error_shape (f : FieldName) (n m : ℕ) (o : Option CoordInput)
    (e : WriteErr) (h : checkCoordLike f n m o = Except.error e) :
    e = WriteErr.shapeError f := by
  cases o with
  | none => simp [checkCoordLike] at h
  | some ci =>
    simp only [checkCoordLike] at h
    split at h
    · simp at h
    · injection h with h2
      exact h2.symm

/-- Every per-field validation failure is a shape error. -/
theorem validateFrames_error_shape (b : Batch) (frames : List (List Vec3))
    (e : WriteErr) (h : validateFrames b frames = Except.error e) :
    ∃ f, e = WriteErr.shapeError f := by
  unfold validateFrames at h
  repeat' split at h
  all_goals first
    | (injection h with h2; exact ⟨_, h2.symm⟩)
    | (rename_i heq; injection h with h2;
       exact ⟨_, h2.symm.trans (checkScalar_error_shape _ _ _ _ heq)⟩)
    | (rename_i heq; injection h with h2;
       exact ⟨_, h2.symm.trans (checkVec_error_shape _ _ _ _ heq)⟩)
    | (rename_i heq; injection h with h2;
       exact ⟨_, h2.symm.trans (checkCoordLike_error_shape _ _ _ _ _ heq)⟩)
    | simp at h

/-- Every `ensure_type` failure is a shape error. -/
theorem validateBatch_error_shape (b : Batch) (e : WriteErr)
    (h : validateBatch b = Except.error e) : ∃ f, e = WriteErr.shapeError f := by
  unfold validateBatch at h
  split at h
  · injection h with h2; exact ⟨_, h2.symm⟩
  · exact validateFrames_error_shape _ _ _ h

/-- Every append-loop failure is an unknown-field or missing-field
error. -/
theorem appendLoop_error_field (nb : NormBatch) :
    ∀ (fs : List FieldName) (s : FileState) (e : WriteErr) (sp : FileState),
      appendLoop nb s fs = WriteResult.err e sp →
      ∃ f, e = WriteErr.unknownFieldError f ∨ e = WriteErr.missingFieldError f := by
  intro fs
  induction fs with
  | nil => intro s e sp h; cases h
  | cons f rest ih =>
    intro s e sp h
    simp only [appendLoop] at h
    split at h
    · exact ih _ _ _ h
    · cases h; exact ⟨f, Or.inl rfl⟩
    · cases h; exact ⟨f, Or.inr rfl⟩
    · exact ih _ _ _ h

/-- A result whose error is `some e` is an `err e` with its carried
state. -/
theorem resultError_some (r : WriteResult) (e : WriteErr)
    (h : resultError r = some e) : r = WriteResult.err e (resultState r) := by
  cases r <;> simp_all [resultError, resultState]

/-- The write tail reports exactly the append-loop error, if any. -/
theorem writeAppend_resultError (nb : NormBatch) (s1 : FileState) :
    resultError (writeAppend nb s1) = resultError (appendLoop nb s1 fieldOrder) := by
  unfold writeAppend
  cases appendLoop nb s1 fieldOrder <;> rfl

/-- A write can only surface the paired-field error from its leading
cell_lengths/cell_angles check. -/
theorem write_paired_only_if (s : FileState) (b : Batch)
    (h : resultError (write s b) = some WriteErr.pairedFieldError) :
    pairedMismatch b = true := by
  unfold write at h
  split at h
  · simp [resultError] at h
  · split at h
    · rename_i hc1
      obtain ⟨h1, h2⟩ := hc1
      cases hca : b.cell_angles with
      | none => exact absurd hca h2
      | some v => simp [pairedMismatch, h1, hca]
    · split at h
      · rename_i hc2
        obtain ⟨h1, h2⟩ := hc2
        cases hcl : b.cell_lengths with
        | none => exact absurd hcl h1
        | some v => simp [pairedMismatch, h2, hcl]
      · split at h
        · rename_i e hval
          simp only [resultError, Option.some.injEq] at h
          subst h
          obtain ⟨f, hf⟩ := validateBatch_error_shape b _ hval
          simp at hf
        · rename_i nb hval
          rw [writeAppend_resultError] at h
          have happ := resultError_some _ _ h
          obtain ⟨f, hf | hf⟩ := appendLoop_error_field nb fieldOrder _ _ _ happ
          · simp at hf
          · simp at hf

/-- C5: when exactly one of cell_lengths and cell_angles is supplied,
`write` raises the paired-field error with the state untouched —
regardless of every other argument, so the check precedes unit
conversion, shape validation and any mutation — and when both or
neither are supplied no paired-field error is ever raised. -/
theorem write_paired_check_first (s : FileState) (b : Batch)
    (hm : s.mode = Mode.w ∨ s.mode = Mode.a) :
    (pairedMismatch b = true →
      write s b = WriteResult.err WriteErr.pairedFieldError s) ∧
    (pairedMismatch b = false →
      resultError (write s b) ≠ some WriteErr.pairedFieldError) := by
  have hmode : ¬ ¬ (s.mode = Mode.w ∨ s.mode = Mode.a) := not_not_intro hm
  constructor
  · intro h
    unfold write
    rw [if_neg hmode]
    cases hcl : b.cell_lengths <;> cases hca : b.cell_angles <;>
      simp [pairedMismatch, hcl, hca] at h ⊢
  · intro h hcontra
    have := write_paired_only_if s b hcontra
    rw [h] at this
    cases this

/-- Witness for C5: supplying only cell_lengths on a fresh file raises
the paired-field error with the state unchanged; the same batch without
the cell fields raises no paired-field error. -/
theorem write_paired_check_first_witness :
    write freshW bCellOnly = WriteResult.err WriteErr.pairedFieldError freshW ∧
    resultError (write freshW batch123) ≠ some WriteErr.pairedFieldError :=
  ⟨(write_paired_check_first freshW bCellOnly (Or.inl rfl)).1 (by decide),
   (write_paired_check_first freshW batch123 (Or.inl rfl)).2 (by decide)⟩

/-- Replacing a node leaves the root attributes untouched. -/
theorem setNode_attrs (c : FileContent) (f : FieldName) (nd : Node) :
    (setNode c f nd).attrs = c.attrs := by
  cases f <;> rfl

/-- The append loop never changes the root attributes. -/
theorem appendLoop_ok_attrs (nb : NormBatch) :
    ∀ (fs : List FieldName) (s s' : FileState),
      appendLoop nb s fs = WriteResult.ok s' → s'.content.attrs = s.content.attrs := by
  intro fs
  induction fs with
  | nil =>
    intro s s' h
    cases h
    rfl
  | cons f rest ih =>
    intro s s' h
    simp only [appendLoop] at h
    split at h
    · exact (ih _ _ h).trans (setNode_attrs _ _ _)
    · cases h
    · cases h
    · exact ih _ _ h

/-- `_initialize_headers` stamps `title` with the literal string and
defaults `application` only when it is unset. -/
theorem initialize_headers_attrs (c : FileContent) (n : ℕ)
    (b1 b2 b3 b4 b5 b6 b7 : Bool) :
    (initialize_headers c n b1 b2 b3 b4 b5 b6 b7).attrs.title = some "title" ∧
    (initialize_headers c n b1 b2 b3 b4 b5 b6 b7).attrs.application =
      (if c.attrs.application = none then some "MDTraj" else c.attrs.application) := by
  unfold initialize_headers
  by_cases h : c.attrs.application = none <;> simp [h]

/-- C8: the first accepted write call unconditionally overwrites the
`title` attribute with the literal string `title`, discarding any title
set before it; only `application` is defaulted conditionally, when not
already set. -/
theorem first_write_overwrites_title (s : FileState) (b : Batch) (s2 : FileState)
    (hinit : s.needs_initialization = true)
    (hok : write s b = WriteResult.ok s2) :
    s2.content.attrs.title = some "title" ∧
    s2.content.attrs.application =
      (if s.content.attrs.application = none then some "MDTraj"
       else s.content.attrs.application) := by
  unfold write at hok
  split at hok
  · cases hok
  · split at hok
    · cases hok
    · split at hok
      · cases hok
      · split at hok
        · cases hok
        · rename_i nb hval
          unfold writeAppend at hok
          split at hok
          · rename_i s2t hloop
            cases hok
            have hattrs := appendLoop_ok_attrs nb fieldOrder _ _ hloop
            have h2 : (initIfNeeded s nb).content =
                initialize_headers s.content nb.n_atoms nb.time.isSome
                  (nb.cell_lengths.isSome || nb.cell_angles.isSome)
                  nb.velocities.isSome nb.kineticEnergy.isSome
                  nb.potentialEnergy.isSome nb.temperature.isSome
                  nb.alchemicalLambda.isSome := by
              simp [initIfNeeded, hinit]
            dsimp only
            rw [hattrs, h2]
            exact initialize_headers_attrs _ _ _ _ _ _ _ _ _
          · cases hok

/-- Witness for C8: a fresh file whose caller set `title` to `mine`
before the first write ends that write with `title` equal to the
literal string, while the caller-set `application` survives. -/
theorem first_write_overwrites_title_witness :
    write freshTitled batch123 = WriteResult.ok freshTitledAfter ∧
    freshTitledAfter.content.attrs.title = some "title" ∧
    freshTitledAfter.content.attrs.application = some "myapp" := by
  refine ⟨rfl, ?_⟩
  have h := first_write_overwrites_title freshTitled batch123 freshTitledAfter rfl rfl
  simpa using h

/-- C4: on a freshly created file, writing one frame of coordinates
`[[1, 2, 3]]` in nanometers and reading the file back (reopened in read
mode) yields exactly that frame in nanometers — the canonical-unit
round trip is the identity, for every external unit converter `conv`
(the stored and requested units coincide, so `conv` is never
consulted). -/
theorem coordinates_roundtrip (conv : String → String → ℚ → ℚ) :
    resultError (write freshW batch123) = none ∧
    read conv (reopenRead (resultState (write freshW batch123))) none none none =
      Except.ok
        (ReadOut.frames
          { coordinates := [FrameVal.rows [(1, 2, 3)]],
            time := none, cell_lengths := none, cell_angles := none,
            velocities := none, kineticEnergy := none, potentialEnergy := none,
            temperature := none, alchemicalLambda := none },
         { reopenRead (resultState (write freshW batch123)) with frame_index := 1 }) := by
  constructor
  · rfl
  · rfl

/-- Replacing an already-present node preserves which nodes exist. -/
theorem getNode_setNode_isSome (c : FileContent) (f g : FieldName) (nd : Node)
    (h : (getNode c f).isSome = true) :
    (getNode (setNode c f nd) g).isSome = (getNode c g).isSome := by
  cases f <;> cases g <;> simp_all [getNode, setNode]

/-- The first supplied/schema disagreement only depends on which nodes
exist. -/
theorem firstMismatch_congr (c cp : FileContent) (nb : NormBatch) (fs : List FieldName)
    (h : ∀ f, (getNode c f).isSome = (getNode cp f).isSome) :
    firstMismatch c nb fs = firstMismatch cp nb fs := by
  induction fs with
  | nil => rfl
  | cons f rest ih =>
    simp only [firstMismatch]
    rw [h f, ih]

/-- The append loop fails exactly on the first field, in write order,
whose supplied/schema presence disagree: with the unknown-field error
when the field was supplied but has no node, with the missing-field
error when it has a node but was not supplied; it succeeds when
presence agrees everywhere. -/
theorem appendLoop_resultError (nb : NormBatch) :
    ∀ (fs : List FieldName) (s : FileState),
      resultError (appendLoop nb s fs) =
        (match firstMismatch s.content nb fs with
         | none => none
         | some (f, true) => some (WriteErr.unknownFieldError f)
         | some (f, false) => some (WriteErr.missingFieldError f)) := by
  intro fs
  induction fs with
  | nil => intro s; rfl
  | cons f rest ih =>
    intro s
    cases hsup : suppliedContents nb f with
    | none =>
      cases hnode : getNode s.content f with
      | none => simp [appendLoop, firstMismatch, hsup, hnode, ih]
      | some nd => simp [appendLoop, firstMismatch, hsup, hnode, resultError]
    | some cont =>
      cases hnode : getNode s.content f with
      | none => simp [appendLoop, firstMismatch, hsup, hnode, resultError]
      | some nd =>
        have hpres : (getNode s.content f).isSome = true := by simp [hnode]
        have hcongr := firstMismatch_congr
          (setNode s.content f ⟨nd.data ++ cont, nd.units, nd.atomDim⟩) s.content nb rest
          (fun g => getNode_setNode_isSome s.content f g _ hpres)
        simp [appendLoop, firstMismatch, hsup, hnode, ih, hcongr]

/-- C2 (counterexample): on the initialized file whose schema is
coordinates plus velocities, a write supplying coordinates plus time
omits the schema field `velocities` — yet the call raises the
unknown-field error (about `time`), not the missing-field error: the
loop reports only the first disagreement in its fixed field order. -/
theorem write_conflict_reports_unknown :
    (getNode sIn.content FieldName.velocities).isSome = true ∧
    bIn.velocities = none ∧
    resultError (write sIn bIn) = some (WriteErr.unknownFieldError FieldName.time) := by
  refine ⟨rfl, rfl, ?_⟩
  rfl

/-- C2 (amended): on an initialized file, once the mode gate, the
paired-field check and shape validation pass, the write raises an error
exactly when some field disagrees with the schema, and it reports the
first disagreeing field in the fixed write order — the unknown-field
error if that field was supplied without being in the schema, the
missing-field error if it is in the schema but unsupplied.  In
particular a write succeeds only when the supplied set equals the
schema, so a field is present in every frame of the file or in none. -/
theorem write_field_schema_contract (s : FileState) (b : Batch) (nb : NormBatch)
    (hm : s.mode = Mode.w ∨ s.mode = Mode.a)
    (hinit : s.needs_initialization = false)
    (hp1 : ¬ (b.cell_lengths = none ∧ b.cell_angles ≠ none))
    (hp2 : ¬ (b.cell_lengths ≠ none ∧ b.cell_angles = none))
    (hv : validateBatch b = Except.ok nb) :
    resultError (write s b) =
      (match firstMismatch s.content nb fieldOrder with
       | none => none
       | some (f, true) => some (WriteErr.unknownFieldError f)
       | some (f, false) => some (WriteErr.missingFieldError f)) := by
  unfold write
  rw [if_neg (not_not_intro hm), if_neg hp1, if_neg hp2, hv]
  have hs1 : initIfNeeded s nb = s := by simp [initIfNeeded, hinit]
  show resultError (writeAppend nb (initIfNeeded s nb)) = _
  rw [writeAppend_resultError, hs1, appendLoop_resultError]

/-- Witness for C2: a write supplying exactly the schema of an
initialized coordinates-only file succeeds. -/
theorem write_field_schema_contract_witness :
    resultError (write sW2 bW2) = none := by
  have h := write_field_schema_contract sW2 bW2 nbW2 (Or.inr rfl) rfl
    (by decide) (by decide) rfl
  have e1 : firstMismatch sW2.content nbW2 fieldOrder = none := rfl
  rw [e1] at h
  exact h

/-- Inserting an element whose key dominates a list appends it. -/
theorem stableInsert_append (key : α → Int) (x : α) (acc : List α)
    (h : ∀ y ∈ acc, key y ≤ key x) : stableInsert key x acc = acc ++ [x] := by
  induction acc with
  | nil => rfl
  | cons y ys ih =>
    rw [stableInsert, if_pos (h y (by simp))]
    rw [ih fun z hz => h z (by simp [hz])]
    rfl

/-- Folding stable insertion over a key-ascending list appends it. -/
theorem foldl_stableInsert (key : α → Int) (l : List α) :
    ∀ acc : List α, (∀ y ∈ acc, ∀ z ∈ l, key y ≤ key z) →
    List.Pairwise (fun a b => key a ≤ key b) l →
    l.foldl (fun acc x => stableInsert key x acc) acc = acc ++ l := by
  induction l with
  | nil => intro acc _ _; simp
  | cons x xs ih =>
    intro acc hacc hpw
    rw [List.foldl_cons, stableInsert_append key x acc (fun y hy => hacc y hy x (by simp))]
    rw [ih (acc ++ [x]) ?_ hpw.of_cons]
    · simp
    · intro y hy z hz
      rcases List.mem_append.mp hy with hy | hy
      · exact hacc y hy z (by simp [hz])
      · simp only [List.mem_singleton] at hy
        subst hy
        exact (List.pairwise_cons.mp hpw).1 z hz

/-- A stable sort leaves a key-ascending list unchanged. -/
theorem sortByKey_eq_self (key : α → Int) (l : List α)
    (h : List.Pairwise (fun a b => key a ≤ key b) l) : sortByKey key l = l := by
  unfold sortByKey
  simpa using foldl_stableInsert key l [] (by simp) h

/-- Every encoded atom index is at least the starting counter. -/
theorem encodeAtomList_index_ge (atoms : List TAtom) :
    ∀ (aIdx : ℕ), ∀ ad ∈ encodeAtomList aIdx atoms, (aIdx : Int) ≤ ad.index := by
  induction atoms with
  | nil => intro aIdx ad had; simp [encodeAtomList] at had
  | cons a rest ih =>
    intro aIdx ad had
    simp only [encodeAtomList, List.mem_cons] at had
    rcases had with rfl | had
    · simp
    · have := ih (aIdx + 1) ad had
      omega

/-- Encoded atom indices ascend. -/
theorem encodeAtomList_pairwise (atoms : List TAtom) :
    ∀ aIdx : ℕ, List.Pairwise (fun x y : AtomDict => x.index ≤ y.index)
      (encodeAtomList aIdx atoms) := by
  induction atoms with
  | nil => intro aIdx; simp [encodeAtomList]
  | cons a rest ih =>
    intro aIdx
    simp only [encodeAtomList, List.pairwise_cons]
    refine ⟨fun ad had => ?_, ih (aIdx + 1)⟩
    have := encodeAtomList_index_ge rest (aIdx + 1) ad had
    show (aIdx : Int) ≤ ad.index
    omega

/-- Decoding an encoded atom list, unsorted step. -/
theorem decodeAtomList_encode (lookup : String → Option Element)
    (atoms : List TAtom) :
    ∀ aIdx : ℕ, (∀ a ∈ atoms, lookup a.element.symbol = some a.element) →
    decodeAtomList lookup (encodeAtomList aIdx atoms) = Except.ok atoms := by
  induction atoms with
  | nil => intro aIdx _; rfl
  | cons a rest ih =>
    intro aIdx h
    simp only [encodeAtomList, decodeAtomList, h a (by simp)]
    rw [ih (aIdx + 1) fun x hx => h x (by simp [hx])]

/-- Decoding an encoded atom list recovers it: the sort is the identity
on the ascending indices and each element resolves to itself. -/
theorem decodeAtoms_encode (lookup : String → Option Element)
    (atoms : List TAtom) (aIdx : ℕ)
    (h : ∀ a ∈ atoms, lookup a.element.symbol = some a.element) :
    decodeAtoms lookup (encodeAtomList aIdx atoms) = Except.ok atoms := by
  unfold decodeAtoms
  rw [sortByKey_eq_self _ _ (encodeAtomList_pairwise atoms aIdx)]
  exact decodeAtomList_encode lookup atoms aIdx h

/-- Every encoded residue index is at least the starting counter. -/
theorem encodeResidueList_index_ge (rs : List TResidue) :
    ∀ (aIdx rIdx : ℕ), ∀ rd ∈ encodeResidueList aIdx rIdx rs,
      (rIdx : Int) ≤ rd.index := by
  induction rs with
  | nil => intro aIdx rIdx rd hrd; simp [encodeResidueList] at hrd
  | cons r rest ih =>
    intro aIdx rIdx rd hrd
    simp only [encodeResidueList, List.mem_cons] at hrd
    rcases hrd with rfl | hrd
    · simp
    · have := ih (aIdx + r.atoms.length) (rIdx + 1) rd hrd
      omega

/-- Encoded residue indices ascend. -/
theorem encodeResidueList_pairwise (rs : List TResidue) :
    ∀ aIdx rIdx : ℕ, List.Pairwise (fun x y : ResidueDict => x.index ≤ y.index)
      (encodeResidueList aIdx rIdx rs) := by
  induction rs with
  | nil => intro aIdx rIdx; simp [encodeResidueList]
  | cons r rest ih =>
    intro aIdx rIdx
    simp only [encodeResidueList, List.pairwise_cons]
    refine ⟨fun rd hrd => ?_, ih (aIdx + r.atoms.length) (rIdx + 1)⟩
    have := encodeResidueList_index_ge rest (aIdx + r.atoms.length) (rIdx + 1) rd hrd
    show (rIdx : Int) ≤ rd.index
    omega

/-- Decoding an encoded residue list, unsorted step. -/
theorem decodeResidueList_encode (lookup : String → Option Element)
    (rs : List TResidue) :
    ∀ aIdx rIdx : ℕ,
    (∀ r ∈ rs, ∀ a ∈ r.atoms, lookup a.element.symbol = some a.element) →
    decodeResidueList lookup (encodeResidueList aIdx rIdx rs) = Except.ok rs := by
  induction rs with
  | nil => intro aIdx rIdx _; rfl
  | cons r rest ih =>
    intro aIdx rIdx h
    simp only [encodeResidueList, decodeResidueList]
    rw [decodeAtoms_encode lookup r.atoms aIdx (h r (by simp))]
    rw [ih (aIdx + r.atoms.length) (rIdx + 1) fun x hx a ha => h x (by simp [hx]) a ha]

/-- Decoding an encoded residue list recovers it. -/
theorem decodeResidues_encode (lookup : String → Option Element)
    (rs : List TResidue) (aIdx rIdx : ℕ)
    (h : ∀ r ∈ rs, ∀ a ∈ r.atoms, lookup a.element.symbol = some a.element) :
    decodeResidues lookup (encodeResidueList aIdx rIdx rs) = Except.ok rs := by
  unfold decodeResidues
  rw [sortByKey_eq_self _ _ (encodeResidueList_pairwise rs aIdx rIdx)]
  exact decodeResidueList_encode lookup rs aIdx rIdx h

/-- Every encoded chain index is at least the starting counter. -/
theorem encodeChainList_index_ge (chs : List TChain) :
    ∀ (aIdx rIdx cIdx : ℕ), ∀ cd ∈ encodeChainList aIdx rIdx cIdx chs,
      (cIdx : Int) ≤ cd.index := by
  induction chs with
  | nil => intro aIdx rIdx cIdx cd hcd; simp [encodeChainList] at hcd
  | cons ch rest ih =>
    intro aIdx rIdx cIdx cd hcd
    simp only [encodeChainList, List.mem_cons] at hcd
    rcases hcd with rfl | hcd
    · simp
    · have := ih (aIdx + chainAtomCount ch) (rIdx + ch.residues.length) (cIdx + 1) cd hcd
      omega

/-- Encoded chain indices ascend. -/
theorem encodeChainList_pairwise (chs : List TChain) :
    ∀ aIdx rIdx cIdx : ℕ, List.Pairwise (fun x y : ChainDict => x.index ≤ y.index)
      (encodeChainList aIdx rIdx cIdx chs) := by
  induction chs with
  | nil => intro aIdx rIdx cIdx; simp [encodeChainList]
  | cons ch rest ih =>
    intro aIdx rIdx cIdx
    simp only [encodeChainList, List.pairwise_cons]
    refine ⟨fun cd hcd => ?_, ih (aIdx + chainAtomCount ch) (rIdx + ch.residues.length) (cIdx + 1)⟩
    have := encodeChainList_index_ge rest (aIdx + chainAtomCount ch)
      (rIdx + ch.residues.length) (cIdx + 1) cd hcd
    show (cIdx : Int) ≤ cd.index
    omega

/-- Decoding an encoded chain list, unsorted step. -/
theorem decodeChainList_encode (lookup : String → Option Element)
    (chs : List TChain) :
    ∀ aIdx rIdx cIdx : ℕ,
    (∀ ch ∈ chs, ∀ r ∈ ch.residues, ∀ a ∈ r.atoms,
      lookup a.element.symbol = some a.element) →
    decodeChainList lookup (encodeChainList aIdx rIdx cIdx chs) = Except.ok chs := by
  induction chs with
  | nil => intro aIdx rIdx cIdx _; rfl
  | cons ch rest ih =>
    intro aIdx rIdx cIdx h
    simp only [encodeChainList, decodeChainList]
    rw [decodeResidues_encode lookup ch.residues aIdx rIdx (h ch (by simp))]
    rw [ih (aIdx + chainAtomCount ch) (rIdx + ch.residues.length) (cIdx + 1)
      fun x hx r hr a ha => h x (by simp [hx]) r hr a ha]

/-- Decoding the encoded chains recovers them. -/
theorem decodeChains_encode (lookup : String → Option Element)
    (chs : List TChain) (aIdx rIdx cIdx : ℕ)
    (h : ∀ ch ∈ chs, ∀ r ∈ ch.residues, ∀ a ∈ r.atoms,
      lookup a.element.symbol = some a.element) :
    decodeChains lookup (encodeChainList aIdx rIdx cIdx chs) = Except.ok chs := by
  unfold decodeChains
  rw [sortByKey_eq_self _ _ (encodeChainList_pairwise chs aIdx rIdx cIdx)]
  exact decodeChainList_encode lookup chs aIdx rIdx cIdx h

/-- In-range coerced indices resolve to themselves. -/
theorem pyIndex_coe (n i : ℕ) (h : i < n) : pyIndex n (i : Int) = some i := by
  unfold pyIndex
  rw [if_pos ⟨Int.natCast_nonneg i, by exact_mod_cast h⟩]
  simp

/-- Decoding the encoded bond pairs recovers them when every index is in
range. -/
theorem decodeBondList_coe (n : ℕ) (bonds : List (ℕ × ℕ))
    (h : ∀ p ∈ bonds, p.1 < n ∧ p.2 < n) :
    decodeBondList n (bonds.map fun p => ((p.1 : Int), (p.2 : Int))) = Except.ok bonds := by
  induction bonds with
  | nil => rfl
  | cons p rest ih =>
    obtain ⟨h1, h2⟩ := h p (by simp)
    simp only [List.map_cons, decodeBondList, pyIndex_coe n p.1 h1, pyIndex_coe n p.2 h2]
    rw [ih fun q hq => h q (by simp [hq])]

/-- C7: encoding a topology graph to the stored record and decoding the
record reproduces the topology exactly — same chains, residues and
atoms ordered by stored index, same names and element symbols, same
bond pairs resolved against the flattened insertion-ordered atom
sequence — for every topology whose bond indices are in range and whose
element symbols resolve through the element table. -/
theorem topology_roundtrip (lookup : String → Option Element) (t : Topology)
    (helem : ∀ a ∈ t.flatAtoms, lookup a.element.symbol = some a.element)
    (hbonds : ∀ p ∈ t.bonds, p.1 < t.flatAtoms.length ∧ p.2 < t.flatAtoms.length) :
    decodeTopology lookup (encodeTopology t) = Except.ok t := by
  have hel : ∀ ch ∈ t.chains, ∀ r ∈ ch.residues, ∀ a ∈ r.atoms,
      lookup a.element.symbol = some a.element := by
    intro ch hch r hr a ha
    refine helem a ?_
    simp only [Topology.flatAtoms, List.mem_flatMap]
    exact ⟨ch, hch, r, hr, ha⟩
  have hchains := decodeChains_encode lookup t.chains 0 0 0 hel
  have hflat : (Topology.mk t.chains []).flatAtoms = t.flatAtoms := rfl
  unfold decodeTopology encodeTopology
  rw [hchains]
  simp only [hflat]
  rw [decodeBondList_coe t.flatAtoms.length t.bonds hbonds]

/-- Witness for C7: the 2-chain, 3-residue, 5-atom, 4-bond example
round-trips through the codec. -/
theorem topology_roundtrip_witness :
    decodeTopology exampleLookup (encodeTopology exampleTop) = Except.ok exampleTop :=
  topology_roundtrip exampleLookup exampleTop (by decide) (by decide)

/-- Witness for C6: after `read()` consumed all five frames of the fresh
file (cursor 0 to 5), the immediately following `read()` returns the
empty list with the cursor still at 5. -/
theorem read_empty_window_noop_witness :
    s1Ex.frame_index = 5 ∧
    read idConv s1Ex none none none = Except.ok (ReadOut.emptyList, s1Ex) :=
  ⟨rfl, read_empty_window_noop idConv s1Ex none none none exNode5 rfl rfl
    (by decide) (by decide)⟩

end MDTraj
